import Mathlib

/-!
Shallow embedding of the technician-scheduling subsystem of the
Dern-Support application: the schedule entity store, the scheduling
controller (`createSchedule`, `updateSchedule`), the service-level
conflict checker (`checkScheduleConflicts`), the availability finder
(`getAvailableTechnicians`) and the auto-assigner
(`autoAssignTechnician`).  Timestamps are modelled as integers (hours);
Mongo documents become Lean structures, and each HTTP handler becomes a
pure function from a store and a request to a result and a new store.
Status and priority fields are strings, exactly as in the JavaScript
source.  The service layer is modelled under Mongo/Mongoose semantics:
its queries and writes use the `startTime`/`endTime` paths, which the
Schedule schema does not define, so under strict mode those clauses
match no stored document and the service's `Schedule.create` always
fails validation on the missing required paths.
-/

namespace Dern

/-- Terminal schedule statuses, per the `$nin: ['completed','cancelled']`
clauses of the controller's conflict queries. -/
def isTerminal (s : String) : Bool :=
  s == "completed" || s == "cancelled"

/-- A document of the `Schedule` collection (scheduleSchema).  The
schema marks `supportRequest` and `createdBy` as required, but the
service layer creates documents without `createdBy`, so both are kept
optional in the embedding; requiredness is enforced where the code
enforces it. -/
structure Schedule where
  id : Nat
  technician : Nat
  supportRequest : Option Nat
  scheduledStart : Int
  scheduledEnd : Int
  status : String
  notes : Option String
  priority : String
  location : Option String
  createdBy : Option Nat
deriving DecidableEq

/-- One entry of a support request's `history` array. -/
structure HistoryEntry where
  action : String
  performedBy : Nat
  detailsMessage : String
deriving DecidableEq

/-- A document of the `SupportRequest` collection (the fields the
scheduling subsystem reads and writes). -/
structure SupportRequest where
  id : Nat
  user : Nat
  priority : String
  status : String
  assignedTo : Option Nat
  history : List HistoryEntry
deriving DecidableEq

/-- A user; `userType` is one of `admin`, `technician`, `business`,
`individual`. -/
structure User where
  id : Nat
  userType : String
deriving DecidableEq

/-- The document store: the three collections the scheduling subsystem
touches, plus the id the next created schedule receives. -/
structure Store where
  schedules : List Schedule
  requests : List SupportRequest
  users : List User
  nextScheduleId : Nat
deriving DecidableEq

def findUser (st : Store) (id : Nat) : Option User :=
  st.users.find? (fun u => u.id == id)

def findRequest (st : Store) (oid : Option Nat) : Option SupportRequest :=
  match oid with
  | none => none
  | some i => st.requests.find? (fun r => r.id == i)

def findSchedule (st : Store) (id : Nat) : Option Schedule :=
  st.schedules.find? (fun s => s.id == id)

/-- Persisting a mutated support-request document (`save()`). -/
def saveRequest (st : Store) (r : SupportRequest) : Store :=
  { st with requests := st.requests.map (fun q => if q.id == r.id then r else q) }

/-- Persisting a mutated schedule document (`save()`). -/
def saveSchedule (st : Store) (s : Schedule) : Store :=
  { st with schedules := st.schedules.map (fun q => if q.id == s.id then s else q) }

/-- The interval-intersection test shared by every conflict query:
`scheduledStart: {$lt: end}, scheduledEnd: {$gt: start}`. -/
def overlapB (c : Schedule) (s e : Int) : Bool :=
  decide (c.scheduledStart < e) && decide (s < c.scheduledEnd)

/-- The inline conflict query of the controller's `createSchedule`:
same technician, intersecting interval, status not in
`['completed','cancelled']`. -/
def scheduleConflicts (schedules : List Schedule) (tech : Nat) (s e : Int) :
    List Schedule :=
  schedules.filter (fun c =>
    c.technician == tech && overlapB c s e && !(isTerminal c.status))

/-- The inline conflict query of the controller's `updateSchedule`:
as `scheduleConflicts`, additionally excluding the updated schedule's
own id (`_id: {$ne: id}`). -/
def scheduleConflictsExcl (schedules : List Schedule) (excludeId tech : Nat)
    (s e : Int) : List Schedule :=
  schedules.filter (fun c =>
    c.id != excludeId && c.technician == tech && overlapB c s e &&
      !(isTerminal c.status))

/-- The request body of `POST /api/scheduling/schedule`. -/
structure CreateInput where
  technicianId : Nat
  supportRequestId : Option Nat
  scheduledStart : Int
  scheduledEnd : Int
  notes : Option String
  priority : Option String
  location : Option String
deriving DecidableEq

/-- Outcome of the controller's `createSchedule` handler. -/
inductive CreateResult
  | forbidden
  | invalidTechnician
  | invalidSupportRequest
  | conflict (conflicts : List Schedule)
  | created (scheduleId : Nat)
deriving DecidableEq

/-- HTTP status code the handler responds with, per `res.status(...)`. -/
def CreateResult.httpStatus : CreateResult → Nat
  | .forbidden => 403
  | .invalidTechnician => 400
  | .invalidSupportRequest => 400
  | .conflict _ => 400
  | .created _ => 201

/-- The scheduling controller's `createSchedule`: admin-only; validates
that the technician exists with the technician role and that the
support request exists; runs the inline conflict query; persists the
schedule with status `scheduled` and `priority || supportRequest.priority`;
if the support request's status is `new`, sets it to `assigned`, records
`assignedTo` and appends a history entry. -/
def createSchedule (st : Store) (actor : User) (input : CreateInput) :
    CreateResult × Store :=
  if actor.userType ≠ "admin" then (.forbidden, st)
  else
    match findUser st input.technicianId with
    | none => (.invalidTechnician, st)
    | some tech =>
      if tech.userType ≠ "technician" then (.invalidTechnician, st)
      else
        match findRequest st input.supportRequestId with
        | none => (.invalidSupportRequest, st)
        | some supportRequest =>
          let conflicts := scheduleConflicts st.schedules input.technicianId
            input.scheduledStart input.scheduledEnd
          if conflicts.isEmpty then
            let schedule : Schedule :=
              { id := st.nextScheduleId
                technician := input.technicianId
                supportRequest := some supportRequest.id
                scheduledStart := input.scheduledStart
                scheduledEnd := input.scheduledEnd
                status := "scheduled"
                notes := input.notes
                priority := input.priority.getD supportRequest.priority
                location := input.location
                createdBy := some actor.id }
            let st1 : Store :=
              { st with schedules := st.schedules ++ [schedule]
                        nextScheduleId := st.nextScheduleId + 1 }
            let st2 : Store :=
              if supportRequest.status == "new" then
                saveRequest st1
                  { supportRequest with
                      status := "assigned"
                      assignedTo := some input.technicianId
                      history := supportRequest.history ++
                        [⟨"assigned", actor.id, "Request assigned to technician"⟩] }
              else st1
            (.created schedule.id, st2)
          else (.conflict conflicts, st)

/-- The request body of `PUT /api/scheduling/schedule/:id`; the handler
destructures exactly these four fields. -/
structure UpdatePatch where
  scheduledStart : Option Int
  scheduledEnd : Option Int
  status : Option String
  notes : Option String
deriving DecidableEq

/-- Outcome of the controller's `updateSchedule` handler. -/
inductive UpdateResult
  | forbidden
  | notFound
  | notOwnSchedule
  | conflict (conflicts : List Schedule)
  | ok (schedule : Schedule)
deriving DecidableEq

/-- HTTP status code the handler responds with, per `res.status(...)`. -/
def UpdateResult.httpStatus : UpdateResult → Nat
  | .forbidden => 403
  | .notFound => 404
  | .notOwnSchedule => 403
  | .conflict _ => 400
  | .ok _ => 200

/-- The field mutation performed by `updateSchedule` before saving: a
technician actor mutates only `status` and `notes`
(`status || schedule.status`, `notes || schedule.notes`); any other
actor (admin) also mutates `scheduledStart` and `scheduledEnd`. -/
def appliedSchedule (actor : User) (schedule : Schedule) (patch : UpdatePatch) :
    Schedule :=
  if actor.userType == "technician" then
    { schedule with
        status := patch.status.getD schedule.status
        notes := patch.notes.orElse (fun _ => schedule.notes) }
  else
    { schedule with
        scheduledStart := patch.scheduledStart.getD schedule.scheduledStart
        scheduledEnd := patch.scheduledEnd.getD schedule.scheduledEnd
        status := patch.status.getD schedule.status
        notes := patch.notes.orElse (fun _ => schedule.notes) }

/-- The post-save cascade of `updateSchedule`: the source guard is
`status === 'completed' && schedule.status !== 'completed'`, evaluated
on the already-mutated (and saved) schedule document; when it fires it
would set the linked support request to `resolved` (unless already
resolved) and append a history entry. -/
def applyCompletedCascade (st : Store) (actor : User)
    (patchStatus : Option String) (schedule : Schedule) : Store :=
  if patchStatus == some "completed" && schedule.status != "completed" then
    match findRequest st schedule.supportRequest with
    | none => st
    | some sr =>
      if sr.status != "resolved" then
        saveRequest st
          { sr with
              status := "resolved"
              history := sr.history ++
                [⟨"resolved", actor.id, "Support request resolved"⟩] }
      else st
  else st

/-- The scheduling controller's `updateSchedule`: admin or technician
only; a technician may touch only their own schedule and only its
status/notes; an admin may also change the window, in which case the
own-id-excluding conflict query re-runs and a non-empty result aborts
the update before anything is saved; afterwards the (dead) completed
cascade runs. -/
def updateSchedule (st : Store) (actor : User) (id : Nat) (patch : UpdatePatch) :
    UpdateResult × Store :=
  if actor.userType ≠ "admin" ∧ actor.userType ≠ "technician" then (.forbidden, st)
  else
    match findSchedule st id with
    | none => (.notFound, st)
    | some schedule =>
      if actor.userType = "technician" ∧ schedule.technician ≠ actor.id then
        (.notOwnSchedule, st)
      else
        let schedule' := appliedSchedule actor schedule patch
        let needCheck := actor.userType != "technician" &&
          (patch.scheduledStart.isSome || patch.scheduledEnd.isSome)
        let conflicts := scheduleConflictsExcl st.schedules id schedule.technician
          schedule'.scheduledStart schedule'.scheduledEnd
        if needCheck && !conflicts.isEmpty then (.conflict conflicts, st)
        else
          let st1 := saveSchedule st schedule'
          let st2 := applyCompletedCascade st1 actor patch.status schedule'
          (.ok schedule', st2)

/-- The Mongo comparison `startTime: {$lt: v}` evaluated on a stored
Schedule document.  The schema defines no `startTime` path (only
`scheduledStart`/`scheduledEnd`), and strict mode strips unknown paths
from every write, so the path is absent from every persistable document
and a `$lt` comparison on a missing path matches no document. -/
def startTimeLt (_c : Schedule) (_v : Int) : Bool := false

/-- The Mongo comparison `endTime: {$gt: v}` on a stored Schedule
document; the `endTime` path does not exist either, so it matches no
document. -/
def endTimeGt (_c : Schedule) (_v : Int) : Bool := false

/-- The service layer's `checkScheduleConflicts`
(`services/schedulingService`): queries the same technician with
`startTime: {$lt: endTime}, endTime: {$gt: startTime}`, optionally
excluding one schedule id.  Because the `startTime`/`endTime` paths do
not exist in the Schedule schema, the interval clauses match no stored
document and the query result is always empty. -/
def checkScheduleConflicts (schedules : List Schedule) (technicianId : Nat)
    (startTime endTime : Int) (excludeScheduleId : Option Nat) : List Schedule :=
  schedules.filter (fun c =>
    c.technician == technicianId && startTimeLt c endTime && endTimeGt c startTime &&
      (match excludeScheduleId with
       | none => true
       | some x => c.id != x))

/-- The service layer's `getAvailableTechnicians`: all users with the
technician role, minus every technician id occurring in a schedule
matched by `startTime: {$lt: endTime}, endTime: {$gt: startTime}`.
Those paths exist in no stored schedule, so the busy set is always
empty and every technician is returned. -/
def getAvailableTechnicians (st : Store) (startTime endTime : Int) : List User :=
  let technicians := st.users.filter (fun u => u.userType == "technician")
  let busyTechnicians :=
    (st.schedules.filter (fun c => startTimeLt c endTime && endTimeGt c startTime)).map
      (fun c => c.technician)
  technicians.filter (fun t => !(busyTechnicians.contains t.id))

/-- The data object the service layer's `createSchedule` receives
(`scheduleData`); `priority` is absent unless a caller supplies it. -/
structure ServiceScheduleData where
  technician : Nat
  supportRequest : Option Nat
  startTime : Int
  endTime : Int
  location : Option String
  status : String
  priority : Option String
  notes : Option String
deriving DecidableEq

/-- Outcome of the service layer's `createSchedule`. -/
inductive ServiceCreateResult
  | conflictError (conflicts : List Schedule)
  | validationError
  | ok (schedule : Schedule)
deriving DecidableEq

/-- The service layer's `createSchedule`: checks
`checkScheduleConflicts` (throwing on a non-empty result, which never
happens), then calls `Schedule.create({...scheduleData, createdAt})`.
That call always throws a ValidationError: strict mode strips the
data's `title`, `description`, `startTime` and `endTime` fields (none
is a schema path), the string `location` fails the cast to the
structured location subdocument, and the required `scheduledStart`,
`scheduledEnd` and `createdBy` paths are left missing.  Nothing is ever
persisted, no notification is sent and the support request is not
touched. -/
def serviceCreateSchedule (st : Store) (data : ServiceScheduleData) :
    ServiceCreateResult × Store :=
  let conflicts := checkScheduleConflicts st.schedules data.technician
    data.startTime data.endTime none
  if conflicts.isEmpty then (.validationError, st)
  else (.conflictError conflicts, st)

/-- Outcome of the service layer's `autoAssignTechnician`. -/
inductive AutoAssignResult
  | requestNotFound
  | noAvailability
  | conflictError (conflicts : List Schedule)
  | validationError
  | ok (schedule : Schedule)
deriving DecidableEq

/-- The service layer's `autoAssignTechnician`: loads the support
request, computes `end = start + durationHours`, asks
`getAvailableTechnicians`, fails when none is available, picks the
first one and delegates to the service `createSchedule`.  The
`scheduleData` it builds carries NO priority field; its location falls
back to the literal `'To be determined'` (the SupportRequest schema
defines no `location` path, so the `supportRequest.location ||` fallback
always fires).  The delegated `Schedule.create` always throws, so the
call never produces a schedule. -/
def autoAssignTechnician (st : Store) (supportRequestId : Nat)
    (preferredDate durationHours : Int) : AutoAssignResult × Store :=
  match findRequest st (some supportRequestId) with
  | none => (.requestNotFound, st)
  | some _ =>
    let startTime := preferredDate
    let endTime := startTime + durationHours
    match getAvailableTechnicians st startTime endTime with
    | [] => (.noAvailability, st)
    | selected :: _ =>
      let data : ServiceScheduleData :=
        { technician := selected.id
          supportRequest := some supportRequestId
          startTime := startTime
          endTime := endTime
          location := some "To be determined"
          status := "scheduled"
          priority := none
          notes := none }
      match serviceCreateSchedule st data with
      | (.ok s, st') => (.ok s, st')
      | (.validationError, st') => (.validationError, st')
      | (.conflictError cs, st') => (.conflictError cs, st')

/-- An API call against the scheduling controller. -/
inductive Op
  | create (actor : User) (input : CreateInput)
  | update (actor : User) (id : Nat) (patch : UpdatePatch)
deriving DecidableEq

/-- The store an operation leaves behind (failed calls leave it
unchanged). -/
def applyOp (st : Store) : Op → Store
  | .create actor input => (createSchedule st actor input).2
  | .update actor id patch => (updateSchedule st actor id patch).2

/-- Running a sequence of API calls. -/
def runOps (st : Store) : List Op → Store
  | [] => st
  | op :: rest => runOps (applyOp st op) rest

/-- Whether an operation reports success (HTTP 201 for create, 200 for
update). -/
def opSucceeds (st : Store) : Op → Bool
  | .create actor input =>
    match (createSchedule st actor input).1 with
    | .created _ => true
    | _ => false
  | .update actor id patch =>
    match (updateSchedule st actor id patch).1 with
    | .ok _ => true
    | _ => false

/-- Every operation of the sequence succeeds, each against the store
the previous ones produced. -/
def opsSucceed (st : Store) : List Op → Bool
  | [] => true
  | op :: rest => opSucceeds st op && opsSucceed (applyOp st op) rest

/-- Guard for the amended no-double-booking invariant: the update does
not revert a terminal-status schedule to a non-terminal status, unless
it is an admin update that also supplies a new window (and therefore
re-runs the conflict query). -/
def opAllowedB (st : Store) : Op → Bool
  | .create _ _ => true
  | .update actor id patch =>
    match findSchedule st id, patch.status with
    | some sched, some ns =>
      !(isTerminal sched.status) || isTerminal ns ||
        (actor.userType == "admin" &&
          (patch.scheduledStart.isSome || patch.scheduledEnd.isSome))
    | _, _ => true

/-- `opAllowedB` along a whole sequence. -/
def opsAllowedB (st : Store) : List Op → Bool
  | [] => true
  | op :: rest => opAllowedB st op && opsAllowedB (applyOp st op) rest

/-- Two schedules' half-open windows intersect:
`A.scheduledStart < B.scheduledEnd ∧ B.scheduledStart < A.scheduledEnd`. -/
def overlaps (a b : Schedule) : Prop :=
  a.scheduledStart < b.scheduledEnd ∧ b.scheduledStart < a.scheduledEnd

instance (a b : Schedule) : Decidable (overlaps a b) := by
  unfold overlaps; infer_instance

/-- No two distinct non-terminal schedules of the same technician
overlap. -/
def conflictFree (schedules : List Schedule) : Prop :=
  ∀ a ∈ schedules, ∀ b ∈ schedules,
    a.id ≠ b.id → a.technician = b.technician →
    isTerminal a.status = false → isTerminal b.status = false →
    ¬ overlaps a b

instance (schedules : List Schedule) : Decidable (conflictFree schedules) := by
  unfold conflictFree; infer_instance

lemma appliedSchedule_status (actor : User) (schedule : Schedule)
    (patch : UpdatePatch) :
    (appliedSchedule actor schedule patch).status = patch.status.getD schedule.status := by
  unfold appliedSchedule
  split <;> rfl

lemma appliedSchedule_id (actor : User) (schedule : Schedule)
    (patch : UpdatePatch) :
    (appliedSchedule actor schedule patch).id = schedule.id := by
  unfold appliedSchedule
  split <;> rfl

lemma appliedSchedule_technician (actor : User) (schedule : Schedule)
    (patch : UpdatePatch) :
    (appliedSchedule actor schedule patch).technician = schedule.technician := by
  unfold appliedSchedule
  split <;> rfl

lemma appliedSchedule_supportRequest (actor : User) (schedule : Schedule)
    (patch : UpdatePatch) :
    (appliedSchedule actor schedule patch).supportRequest = schedule.supportRequest := by
  unfold appliedSchedule
  split <;> rfl

lemma appliedSchedule_priority (actor : User) (schedule : Schedule)
    (patch : UpdatePatch) :
    (appliedSchedule actor schedule patch).priority = schedule.priority := by
  unfold appliedSchedule
  split <;> rfl

lemma appliedSchedule_location (actor : User) (schedule : Schedule)
    (patch : UpdatePatch) :
    (appliedSchedule actor schedule patch).location = schedule.location := by
  unfold appliedSchedule
  split <;> rfl

lemma appliedSchedule_createdBy (actor : User) (schedule : Schedule)
    (patch : UpdatePatch) :
    (appliedSchedule actor schedule patch).createdBy = schedule.createdBy := by
  unfold appliedSchedule
  split <;> rfl

/-- The completed cascade never fires: the guard compares the patch
status with the schedule's status after the latter has already been
overwritten by the patch, so it is false on every input. -/
lemma cascade_noop (st : Store) (actor : User) (schedule : Schedule)
    (patch : UpdatePatch) :
    applyCompletedCascade st actor patch.status (appliedSchedule actor schedule patch) = st := by
  unfold applyCompletedCascade
  rw [appliedSchedule_status]
  cases hp : patch.status with
  | none => simp
  | some s =>
    by_cases h : s = "completed"
    · subst h; simp
    · simp [h]

/-- Claim C2 (code bug): `updateSchedule` never touches the support
request collection.  The cascade that should set the linked request to
`resolved` on completion is dead code, because its guard
`status === 'completed' && schedule.status !== 'completed'` is
evaluated after `schedule.status` has already been set to the patch
status; so for every store, actor, schedule id and patch the requests
collection after the call equals the one before. -/
theorem updateSchedule_never_resolves_request (st : Store) (actor : User)
    (id : Nat) (patch : UpdatePatch) :
    (updateSchedule st actor id patch).2.requests = st.requests := by
  unfold updateSchedule
  split
  · rfl
  · split
    · rfl
    · split
      · rfl
      · dsimp only
        split
        · rfl
        · rw [cascade_noop]
          rfl

lemma find?_replace (l : List Schedule) (s' : Schedule) (id : Nat)
    (hid : s'.id = id) :
    (l.map (fun q => if q.id == s'.id then s' else q)).find? (fun q => q.id == id) =
      (l.find? (fun q => q.id == id)).map (fun _ => s') := by
  subst hid
  induction l with
  | nil => rfl
  | cons q t ih =>
    simp only [List.map_cons]
    by_cases h : q.id = s'.id
    · rw [if_pos (by simpa using h)]
      rw [List.find?_cons_of_pos _ (by simp), List.find?_cons_of_pos _ (by simpa using h)]
      rfl
    · rw [if_neg (by simpa using h)]
      rw [List.find?_cons_of_neg _ (by simpa using h),
        List.find?_cons_of_neg _ (by simpa using h)]
      exact ih

lemma findSchedule_saveSchedule (st : Store) (s' : Schedule) (id : Nat)
    (hid : s'.id = id) :
    findSchedule (saveSchedule st s') id = (findSchedule st id).map (fun _ => s') := by
  unfold findSchedule saveSchedule
  exact find?_replace st.schedules s' id hid

/-- Claim C10: no `updateSchedule` call, by any actor and with any
patch, ever changes which technician a schedule is assigned to — the
handler destructures only `scheduledStart`, `scheduledEnd`, `status`
and `notes` from the body and never writes the `technician` field. -/
theorem updateSchedule_preserves_technician (st : Store) (actor : User)
    (id : Nat) (patch : UpdatePatch) :
    (findSchedule (updateSchedule st actor id patch).2 id).map (fun s => s.technician) =
      (findSchedule st id).map (fun s => s.technician) := by
  unfold updateSchedule
  split
  · rfl
  · split
    · rfl
    · next sched heq =>
      split
      · rfl
      · dsimp only
        split
        · rfl
        · rw [cascade_noop]
          have hid : (appliedSchedule actor sched patch).id = id := by
            rw [appliedSchedule_id]
            simpa using List.find?_some heq
          rw [findSchedule_saveSchedule st _ id hid, heq]
          simp [appliedSchedule_technician]

/-- Claim C6 (amended): a user is in the availability finder's result
exactly when it is a stored user with the technician role — the
schedules play no part.  The busy query compares the
`startTime`/`endTime` paths, which no stored schedule has, so the busy
set is always empty and even a technician with an overlapping
non-terminal schedule is returned. -/
theorem getAvailableTechnicians_mem_iff (st : Store) (s e : Int) (u : User) :
    u ∈ getAvailableTechnicians st s e ↔
      u ∈ st.users ∧ u.userType = "technician" := by
  unfold getAvailableTechnicians
  simp [List.mem_filter, startTimeLt]

/-- A technician with a non-terminal schedule over `[0, 10)`. -/
def busyTech : User := ⟨2, "technician"⟩

/-- Store for the availability counterexample: technician 2 has one
schedule over `[0, 10)` with the non-terminal status `scheduled`. -/
def c6BusyStore : Store :=
  { schedules := [⟨100, 2, some 1, 0, 10, "scheduled", none, "medium", none, some 1⟩]
    requests := []
    users := [busyTech]
    nextScheduleId := 101 }

/-- Claim C6 counterexample: technician 2 has a schedule with
non-terminal status whose interval overlaps `[0, 10)`, yet
`getAvailableTechnicians` still returns them — the busy query's
`startTime`/`endTime` paths match no stored schedule, so nobody is ever
excluded. -/
theorem getAvailableTechnicians_includes_busy_cex :
    (∃ c ∈ c6BusyStore.schedules, c.technician = busyTech.id ∧
      isTerminal c.status = false ∧ c.scheduledStart < 10 ∧ (0 : Int) < c.scheduledEnd) ∧
      busyTech ∈ getAvailableTechnicians c6BusyStore 0 10 := by
  decide

/-- A technician with no schedules at all. -/
def freeTech : User := ⟨3, "technician"⟩

/-- Store with a completely free technician. -/
def c6FreeStore : Store := ⟨[], [], [freeTech], 100⟩

/-- Witness for the C6 characterization: a schedule-free technician is
returned by the availability finder. -/
theorem getAvailableTechnicians_mem_iff_witness :
    freeTech ∈ getAvailableTechnicians c6FreeStore 0 10 :=
  (getAvailableTechnicians_mem_iff c6FreeStore 0 10 freeTech).mpr (by decide)

/-- The service conflict query is always empty: its interval clauses
compare the `startTime`/`endTime` paths, which are absent from every
stored schedule. -/
lemma checkScheduleConflicts_empty (l : List Schedule) (tech : Nat)
    (s e : Int) (excl : Option Nat) :
    checkScheduleConflicts l tech s e excl = [] := by
  simp [checkScheduleConflicts, startTimeLt]

/-- Claim C7 (code bug): `autoAssignTechnician` never creates a
schedule.  Every call ends in request-not-found, no-availability or the
validation error thrown by the delegated `Schedule.create` (the
`scheduleData` lacks the required `scheduledStart`, `scheduledEnd` and
`createdBy` paths after strict-mode stripping), and the store is left
unchanged — so no schedule carrying the support request's priority, or
any priority, ever comes into existence. -/
theorem autoAssign_never_creates (st : Store) (rid : Nat) (d dur : Int) :
    ((autoAssignTechnician st rid d dur).1 = .requestNotFound ∨
      (autoAssignTechnician st rid d dur).1 = .noAvailability ∨
      (autoAssignTechnician st rid d dur).1 = .validationError) ∧
    (autoAssignTechnician st rid d dur).2 = st := by
  have hs : ∀ data : ServiceScheduleData,
      serviceCreateSchedule st data = (.validationError, st) := by
    intro data
    simp [serviceCreateSchedule, checkScheduleConflicts_empty]
  unfold autoAssignTechnician
  split
  · exact ⟨Or.inl rfl, rfl⟩
  · dsimp only
    split
    · exact ⟨Or.inr (Or.inl rfl), rfl⟩
    · rw [hs]
      exact ⟨Or.inr (Or.inr rfl), rfl⟩

/-- An active (non-terminal) schedule of technician 2 over `[0, 10)`. -/
def c4Active : Schedule := ⟨100, 2, some 1, 0, 10, "scheduled", none, "medium", none, some 1⟩

/-- Claim C4 counterexample: `c4Active` is a non-terminal schedule of
technician 2 satisfying the claim's interval condition for the window
`[0, 10)` — the controller's inline query duly returns it — but the
service-level `checkScheduleConflicts`, the conflict check used by the
service layer's `createSchedule` and `updateSchedule`, returns the
empty list: its query compares the `startTime`/`endTime` paths, which
no stored schedule has, so it reports no conflict at all. -/
theorem checkScheduleConflicts_misses_overlap_cex :
    isTerminal c4Active.status = false ∧ c4Active.technician = 2 ∧
      c4Active.scheduledStart < 10 ∧ (0 : Int) < c4Active.scheduledEnd ∧
      scheduleConflicts [c4Active] 2 0 10 = [c4Active] ∧
      checkScheduleConflicts [c4Active] 2 0 10 none = [] := by
  decide

/-- Claim C4 (amended): the controller's inline checks
(`scheduleConflicts` for create, `scheduleConflictsExcl` for update)
return exactly the technician's interval-intersecting schedules of
non-terminal status, the update variant also excluding the updated
schedule's own id, and an exactly adjacent window never makes the
existing schedule a conflict, so an adjacent create through the
controller succeeds; the service-level `checkScheduleConflicts` always
returns the empty list, because its query compares the
`startTime`/`endTime` paths that no stored schedule has. -/
theorem conflict_checks_characterization (l : List Schedule) (tech xid : Nat)
    (s e : Int) (c : Schedule) (excl : Option Nat) :
    (c ∈ scheduleConflicts l tech s e ↔
      c ∈ l ∧ c.technician = tech ∧ c.scheduledStart < e ∧ s < c.scheduledEnd ∧
        isTerminal c.status = false)
    ∧ (c ∈ scheduleConflictsExcl l xid tech s e ↔
      c ∈ l ∧ c.id ≠ xid ∧ c.technician = tech ∧ c.scheduledStart < e ∧
        s < c.scheduledEnd ∧ isTerminal c.status = false)
    ∧ checkScheduleConflicts l tech s e excl = []
    ∧ c ∉ scheduleConflicts l tech c.scheduledEnd e
    ∧ c ∉ scheduleConflicts l tech s c.scheduledStart
    ∧ (∀ (st : Store) (actor : User) (input : CreateInput),
        actor.userType = "admin" →
        (∃ u, findUser st input.technicianId = some u ∧ u.userType = "technician") →
        (∃ sr, findRequest st input.supportRequestId = some sr) →
        st.schedules = [c] →
        c.technician = input.technicianId →
        input.scheduledStart = c.scheduledEnd →
        (createSchedule st actor input).1 = .created st.nextScheduleId) := by
  refine ⟨?_, ?_, ?_, ?_, ?_, ?_⟩
  · simp [scheduleConflicts, List.mem_filter, overlapB, and_assoc]
  · simp [scheduleConflictsExcl, List.mem_filter, overlapB, and_assoc]
  · exact checkScheduleConflicts_empty l tech s e excl
  · intro hmem
    have := (List.mem_filter.mp hmem).2
    simp [overlapB] at this
  · intro hmem
    have := (List.mem_filter.mp hmem).2
    simp [overlapB] at this
  · rintro st actor input hadmin ⟨u, hu, hut⟩ ⟨sr, hsr⟩ hsch htech hstart
    have hconf : scheduleConflicts st.schedules input.technicianId
        input.scheduledStart input.scheduledEnd = [] := by
      rw [hsch, hstart]
      simp [scheduleConflicts, overlapB, List.filter]
    rw [createSchedule]
    rw [if_neg (by simp [hadmin])]
    rw [hu]
    dsimp only
    rw [if_neg (by simp [hut])]
    rw [hsr]
    dsimp only
    rw [hconf]
    simp only [List.isEmpty_nil, if_true]

/-- Store with only `c4Active` persisted, for the adjacency witness. -/
def c4AdjStore : Store :=
  ⟨[c4Active], [⟨1, 3, "medium", "new", none, []⟩], [⟨1, "admin"⟩, ⟨2, "technician"⟩], 101⟩

/-- Witness for the C4 characterization: the adjacent window
`[10, 12)` does not conflict with the `[0, 10)` schedule, and the
adjacent create through the controller succeeds. -/
theorem conflict_checks_characterization_witness :
    c4Active ∉ scheduleConflicts [c4Active] 2 c4Active.scheduledEnd 12 ∧
      (createSchedule c4AdjStore ⟨1, "admin"⟩ ⟨2, some 1, 10, 12, none, none, none⟩).1 =
        .created c4AdjStore.nextScheduleId := by
  constructor
  · exact (conflict_checks_characterization [c4Active] 2 0 0 12 c4Active none).2.2.2.1
  · exact (conflict_checks_characterization [c4Active] 2 0 0 0 c4Active none).2.2.2.2.2
      c4AdjStore ⟨1, "admin"⟩ ⟨2, some 1, 10, 12, none, none, none⟩ rfl
      ⟨⟨2, "technician"⟩, by decide, rfl⟩
      ⟨⟨1, 3, "medium", "new", none, []⟩, by decide⟩
      rfl (by decide) (by decide)

/-- Store for the window-validation counterexample: admin 1,
technician 2, support request 1, no schedules. -/
def c3Store : Store :=
  ⟨[], [⟨1, 3, "medium", "new", none, []⟩], [⟨1, "admin"⟩, ⟨2, "technician"⟩], 100⟩

/-- An inverted window: `scheduledStart = 10 ≥ 5 = scheduledEnd`. -/
def c3Input : CreateInput := ⟨2, some 1, 10, 5, none, none, none⟩

/-- Claim C3 counterexample: a create request whose `scheduledStart`
exceeds its `scheduledEnd` is not rejected with a 400 — it succeeds
with HTTP 201 and the inverted window is persisted. -/
theorem createSchedule_accepts_inverted_window_cex :
    c3Input.scheduledEnd ≤ c3Input.scheduledStart ∧
      (createSchedule c3Store ⟨1, "admin"⟩ c3Input).1 = .created 100 ∧
      (createSchedule c3Store ⟨1, "admin"⟩ c3Input).1.httpStatus = 201 ∧
      (∃ sch ∈ (createSchedule c3Store ⟨1, "admin"⟩ c3Input).2.schedules,
        sch.id = 100 ∧ sch.scheduledStart = 10 ∧ sch.scheduledEnd = 5) := by
  decide

/-- Claim C3 (amended): `createSchedule` performs no ordering check on
the window.  For every otherwise-valid input — admin actor, existing
technician user, existing support request, empty conflict set — the
create succeeds (HTTP 201) and persists the schedule even when
`scheduledStart ≥ scheduledEnd`. -/
theorem createSchedule_no_window_validation (st : Store) (actor : User)
    (input : CreateInput)
    (hadmin : actor.userType = "admin")
    (htech : ∃ u, findUser st input.technicianId = some u ∧ u.userType = "technician")
    (hsr : ∃ sr, findRequest st input.supportRequestId = some sr)
    (hconf : scheduleConflicts st.schedules input.technicianId
      input.scheduledStart input.scheduledEnd = [])
    (_hinv : input.scheduledEnd ≤ input.scheduledStart) :
    (createSchedule st actor input).1 = .created st.nextScheduleId ∧
      (createSchedule st actor input).1.httpStatus = 201 ∧
      ∃ sch ∈ (createSchedule st actor input).2.schedules,
        sch.id = st.nextScheduleId ∧ sch.scheduledStart = input.scheduledStart ∧
          sch.scheduledEnd = input.scheduledEnd := by
  obtain ⟨u, hu, hut⟩ := htech
  obtain ⟨sr, hsrr⟩ := hsr
  rw [createSchedule]
  rw [if_neg (by simp [hadmin])]
  rw [hu]
  dsimp only
  rw [if_neg (by simp [hut])]
  rw [hsrr]
  dsimp only
  rw [hconf]
  simp only [List.isEmpty_nil, if_true]
  refine ⟨by trivial, by rfl, ?_⟩
  refine ⟨{ id := st.nextScheduleId, technician := input.technicianId,
            supportRequest := some sr.id, scheduledStart := input.scheduledStart,
            scheduledEnd := input.scheduledEnd, status := "scheduled",
            notes := input.notes, priority := input.priority.getD sr.priority,
            location := input.location, createdBy := some actor.id }, ?_, rfl, rfl, rfl⟩
  split
  · simp [saveRequest]
  · simp

/-- Witness for the amended C3 theorem at the inverted-window input. -/
theorem createSchedule_no_window_validation_witness :
    (createSchedule c3Store ⟨1, "admin"⟩ c3Input).1 = .created c3Store.nextScheduleId ∧
      (createSchedule c3Store ⟨1, "admin"⟩ c3Input).1.httpStatus = 201 ∧
      ∃ sch ∈ (createSchedule c3Store ⟨1, "admin"⟩ c3Input).2.schedules,
        sch.id = c3Store.nextScheduleId ∧ sch.scheduledStart = c3Input.scheduledStart ∧
          sch.scheduledEnd = c3Input.scheduledEnd :=
  createSchedule_no_window_validation c3Store ⟨1, "admin"⟩ c3Input rfl
    ⟨⟨2, "technician"⟩, by decide, rfl⟩
    ⟨⟨1, 3, "medium", "new", none, []⟩, by decide⟩
    (by decide) (by decide)

/-- Store for the missing-support-request counterexample. -/
def c9Store : Store :=
  ⟨[], [⟨1, 3, "medium", "new", none, []⟩], [⟨1, "admin"⟩, ⟨2, "technician"⟩], 100⟩

/-- A create input that supplies no support request at all. -/
def c9Input : CreateInput := ⟨2, none, 0, 10, none, none, none⟩

/-- Claim C9 counterexample: with a valid technician, a conflict-free
window and no support request supplied, `createSchedule` does NOT
succeed — it answers `Invalid support request` with HTTP 400 and
persists nothing. -/
theorem createSchedule_requires_supportRequest_cex :
    c9Input.supportRequestId = none ∧
      createSchedule c9Store ⟨1, "admin"⟩ c9Input = (.invalidSupportRequest, c9Store) ∧
      (createSchedule c9Store ⟨1, "admin"⟩ c9Input).1.httpStatus = 400 := by
  decide

/-- Claim C9 (amended): the `supportRequest` reference is required —
the schema marks it `required: true` and `createSchedule` rejects every
input without one: for any store and admin actor, if the technician is
valid and no support request id is supplied, the handler returns
`Invalid support request` (HTTP 400) and leaves the store unchanged. -/
theorem createSchedule_missing_supportRequest_rejected (st : Store) (actor : User)
    (input : CreateInput)
    (hadmin : actor.userType = "admin")
    (htech : ∃ u, findUser st input.technicianId = some u ∧ u.userType = "technician")
    (hnone : input.supportRequestId = none) :
    createSchedule st actor input = (.invalidSupportRequest, st) ∧
      (createSchedule st actor input).1.httpStatus = 400 := by
  obtain ⟨u, hu, hut⟩ := htech
  have h : createSchedule st actor input = (.invalidSupportRequest, st) := by
    rw [createSchedule]
    rw [if_neg (by simp [hadmin])]
    rw [hu]
    dsimp only
    rw [if_neg (by simp [hut])]
    rw [show findRequest st input.supportRequestId = none by rw [hnone]; rfl]
  exact ⟨h, by rw [h]; rfl⟩


/-- Witness for the amended C9 theorem at a concrete input. -/
theorem createSchedule_missing_supportRequest_rejected_witness :
    createSchedule c9Store ⟨1, "admin"⟩ c9Input = (.invalidSupportRequest, c9Store) ∧
      (createSchedule c9Store ⟨1, "admin"⟩ c9Input).1.httpStatus = 400 :=
  createSchedule_missing_supportRequest_rejected c9Store ⟨1, "admin"⟩ c9Input rfl
    ⟨⟨2, "technician"⟩, by decide, rfl⟩ rfl

/-- Inversion of a successful update: the returned schedule is the
patch applied to the stored one, and the final store is exactly the
store with that schedule saved (the completed cascade being dead). -/
lemma updateSchedule_ok_inv (st : Store) (actor : User) (id : Nat)
    (patch : UpdatePatch) (sched' : Schedule)
    (hok : (updateSchedule st actor id patch).1 = .ok sched') :
    ∃ sched, findSchedule st id = some sched ∧
      sched' = appliedSchedule actor sched patch ∧
      updateSchedule st actor id patch = (.ok sched', saveSchedule st sched') := by
  by_cases h1 : actor.userType ≠ "admin" ∧ actor.userType ≠ "technician"
  · rw [updateSchedule, if_pos h1] at hok
    simp at hok
  · cases hfind : findSchedule st id with
    | none =>
      rw [updateSchedule, if_neg h1, hfind] at hok
      simp at hok
    | some sched =>
      by_cases h2 : actor.userType = "technician" ∧ sched.technician ≠ actor.id
      · rw [updateSchedule, if_neg h1, hfind] at hok
        dsimp only at hok
        rw [if_pos h2] at hok
        simp at hok
      · unfold updateSchedule at hok ⊢
        rw [if_neg h1, hfind] at hok ⊢
        dsimp only at hok ⊢
        rw [if_neg h2] at hok ⊢
        by_cases h3 : (actor.userType != "technician" &&
            (patch.scheduledStart.isSome || patch.scheduledEnd.isSome) &&
            !(scheduleConflictsExcl st.schedules id sched.technician
              (appliedSchedule actor sched patch).scheduledStart
              (appliedSchedule actor sched patch).scheduledEnd).isEmpty) = true
        · rw [if_pos h3] at hok
          simp at hok
        · rw [if_neg h3] at hok ⊢
          rw [cascade_noop] at hok ⊢
          simp only [Prod.fst] at hok
          cases hok
          exact ⟨sched, rfl, rfl, rfl⟩

/-- Claim C8: role-based field restriction of `updateSchedule`.  A
successful technician update leaves `scheduledStart`, `scheduledEnd`,
`technician`, `priority`, `location` and `createdBy` untouched, whatever
the patch contains, changing at most status and notes; a successful
admin update leaves `technician`, `priority`, `location` and `createdBy`
untouched and writes exactly the patched window and status. -/
theorem updateSchedule_field_restriction (st : Store) (actor : User) (id : Nat)
    (patch : UpdatePatch) :
    (actor.userType = "technician" → ∀ sched',
      (updateSchedule st actor id patch).1 = .ok sched' →
      ∃ sched, findSchedule st id = some sched ∧
        findSchedule (updateSchedule st actor id patch).2 id = some sched' ∧
        sched'.scheduledStart = sched.scheduledStart ∧
        sched'.scheduledEnd = sched.scheduledEnd ∧
        sched'.technician = sched.technician ∧
        sched'.priority = sched.priority ∧
        sched'.location = sched.location ∧
        sched'.createdBy = sched.createdBy ∧
        sched'.status = patch.status.getD sched.status) ∧
    (actor.userType = "admin" → ∀ sched',
      (updateSchedule st actor id patch).1 = .ok sched' →
      ∃ sched, findSchedule st id = some sched ∧
        findSchedule (updateSchedule st actor id patch).2 id = some sched' ∧
        sched'.technician = sched.technician ∧
        sched'.priority = sched.priority ∧
        sched'.location = sched.location ∧
        sched'.createdBy = sched.createdBy ∧
        sched'.scheduledStart = patch.scheduledStart.getD sched.scheduledStart ∧
        sched'.scheduledEnd = patch.scheduledEnd.getD sched.scheduledEnd ∧
        sched'.status = patch.status.getD sched.status) := by
  constructor
  · intro htech sched' hok
    obtain ⟨sched, hfind, hs, hpair⟩ := updateSchedule_ok_inv st actor id patch sched' hok
    have hid : sched'.id = id := by
      rw [hs, appliedSchedule_id]
      simpa using List.find?_some hfind
    refine ⟨sched, hfind, ?_, ?_⟩
    · rw [hpair]
      show findSchedule (saveSchedule st sched') id = some sched'
      rw [findSchedule_saveSchedule st sched' id hid, hfind]
      rfl
    · rw [hs]
      unfold appliedSchedule
      rw [if_pos (by simp [htech])]
      exact ⟨rfl, rfl, rfl, rfl, rfl, rfl, rfl⟩
  · intro hadmin sched' hok
    obtain ⟨sched, hfind, hs, hpair⟩ := updateSchedule_ok_inv st actor id patch sched' hok
    have hid : sched'.id = id := by
      rw [hs, appliedSchedule_id]
      simpa using List.find?_some hfind
    refine ⟨sched, hfind, ?_, ?_⟩
    · rw [hpair]
      show findSchedule (saveSchedule st sched') id = some sched'
      rw [findSchedule_saveSchedule st sched' id hid, hfind]
      rfl
    · rw [hs]
      unfold appliedSchedule
      rw [if_neg (by simp [hadmin])]
      exact ⟨rfl, rfl, rfl, rfl, rfl, rfl, rfl⟩

/-- Schedule for the role-restriction witness. -/
def c8Sched : Schedule := ⟨100, 2, some 1, 0, 10, "scheduled", none, "medium", none, some 1⟩

/-- Store for the role-restriction witness. -/
def c8Store : Store := ⟨[c8Sched], [], [⟨1, "admin"⟩, ⟨2, "technician"⟩], 101⟩

/-- A technician patch that also (vainly) tries to move the window. -/
def c8TechPatch : UpdatePatch := ⟨some 50, some 60, some "in_progress", some "note"⟩

/-- An admin patch that moves the window. -/
def c8AdminPatch : UpdatePatch := ⟨some 20, some 30, none, none⟩

/-- Result of the technician update: window untouched. -/
def c8TechRes : Schedule :=
  ⟨100, 2, some 1, 0, 10, "in_progress", some "note", "medium", none, some 1⟩

/-- Result of the admin update: window moved. -/
def c8AdminRes : Schedule := ⟨100, 2, some 1, 20, 30, "scheduled", none, "medium", none, some 1⟩

/-- Witness for the C8 theorem: one concrete technician update and one
concrete admin update. -/
theorem updateSchedule_field_restriction_witness :
    (∃ sched, findSchedule c8Store 100 = some sched ∧
      findSchedule (updateSchedule c8Store ⟨2, "technician"⟩ 100 c8TechPatch).2 100 =
        some c8TechRes ∧
      c8TechRes.scheduledStart = sched.scheduledStart ∧
      c8TechRes.scheduledEnd = sched.scheduledEnd ∧
      c8TechRes.technician = sched.technician ∧
      c8TechRes.priority = sched.priority ∧
      c8TechRes.location = sched.location ∧
      c8TechRes.createdBy = sched.createdBy ∧
      c8TechRes.status = c8TechPatch.status.getD sched.status) ∧
    (∃ sched, findSchedule c8Store 100 = some sched ∧
      findSchedule (updateSchedule c8Store ⟨1, "admin"⟩ 100 c8AdminPatch).2 100 =
        some c8AdminRes ∧
      c8AdminRes.technician = sched.technician ∧
      c8AdminRes.priority = sched.priority ∧
      c8AdminRes.location = sched.location ∧
      c8AdminRes.createdBy = sched.createdBy ∧
      c8AdminRes.scheduledStart = c8AdminPatch.scheduledStart.getD sched.scheduledStart ∧
      c8AdminRes.scheduledEnd = c8AdminPatch.scheduledEnd.getD sched.scheduledEnd ∧
      c8AdminRes.status = c8AdminPatch.status.getD sched.status) :=
  ⟨(updateSchedule_field_restriction c8Store ⟨2, "technician"⟩ 100 c8TechPatch).1
      rfl c8TechRes (by decide),
   (updateSchedule_field_restriction c8Store ⟨1, "admin"⟩ 100 c8AdminPatch).2
      rfl c8AdminRes (by decide)⟩

/-- Claim C5: with otherwise-valid input, `createSchedule` succeeds
exactly when its conflict query is empty, and a non-empty query makes
it answer a conflict error (HTTP 400) carrying precisely the
conflicting records; likewise an admin `updateSchedule` that supplies a
new window succeeds exactly when the own-id-excluding conflict query
over the new window is empty, and otherwise answers the conflict error
carrying those records. -/
theorem create_update_succeed_iff_no_conflicts (st : Store) (actor : User)
    (input : CreateInput) (id : Nat) (patch : UpdatePatch) :
    (actor.userType = "admin" →
      (∃ u, findUser st input.technicianId = some u ∧ u.userType = "technician") →
      (∃ sr, findRequest st input.supportRequestId = some sr) →
      (((createSchedule st actor input).1 = .created st.nextScheduleId ↔
        scheduleConflicts st.schedules input.technicianId input.scheduledStart
          input.scheduledEnd = []) ∧
       (scheduleConflicts st.schedules input.technicianId input.scheduledStart
          input.scheduledEnd ≠ [] →
        (createSchedule st actor input).1 =
          .conflict (scheduleConflicts st.schedules input.technicianId
            input.scheduledStart input.scheduledEnd) ∧
        (createSchedule st actor input).1.httpStatus = 400))) ∧
    (∀ sched, actor.userType = "admin" →
      findSchedule st id = some sched →
      patch.scheduledStart.isSome ∨ patch.scheduledEnd.isSome →
      (((updateSchedule st actor id patch).1 = .ok (appliedSchedule actor sched patch) ↔
        scheduleConflictsExcl st.schedules id sched.technician
          (patch.scheduledStart.getD sched.scheduledStart)
          (patch.scheduledEnd.getD sched.scheduledEnd) = []) ∧
       (scheduleConflictsExcl st.schedules id sched.technician
          (patch.scheduledStart.getD sched.scheduledStart)
          (patch.scheduledEnd.getD sched.scheduledEnd) ≠ [] →
        (updateSchedule st actor id patch).1 =
          .conflict (scheduleConflictsExcl st.schedules id sched.technician
            (patch.scheduledStart.getD sched.scheduledStart)
            (patch.scheduledEnd.getD sched.scheduledEnd)) ∧
        (updateSchedule st actor id patch).1.httpStatus = 400))) := by
  constructor
  · rintro hadmin ⟨u, hu, hut⟩ ⟨sr, hsr⟩
    rw [createSchedule]
    rw [if_neg (by simp [hadmin])]
    rw [hu]
    dsimp only
    rw [if_neg (by simp [hut])]
    rw [hsr]
    dsimp only
    cases hc : scheduleConflicts st.schedules input.technicianId
        input.scheduledStart input.scheduledEnd with
    | nil => simp
    | cons a as => simp [CreateResult.httpStatus]
  · intro sched hadmin hfind hdates
    have h1 : (actor.userType != "technician") = true := by simp [hadmin]
    have h2 : (patch.scheduledStart.isSome || patch.scheduledEnd.isSome) = true := by
      rcases hdates with h | h <;> simp [h]
    have hstart : (appliedSchedule actor sched patch).scheduledStart =
        patch.scheduledStart.getD sched.scheduledStart := by
      unfold appliedSchedule
      rw [if_neg (by simp [hadmin])]
    have hend : (appliedSchedule actor sched patch).scheduledEnd =
        patch.scheduledEnd.getD sched.scheduledEnd := by
      unfold appliedSchedule
      rw [if_neg (by simp [hadmin])]
    rw [updateSchedule]
    rw [if_neg (by simp [hadmin])]
    rw [hfind]
    dsimp only
    rw [if_neg (by simp [hadmin])]
    rw [hstart, hend, h1, h2]
    cases hc : scheduleConflictsExcl st.schedules id sched.technician
        (patch.scheduledStart.getD sched.scheduledStart)
        (patch.scheduledEnd.getD sched.scheduledEnd) with
    | nil => simp
    | cons a as => simp [UpdateResult.httpStatus]

/-- The busy schedule of the conflict-iff witness: technician 2 over
`[0, 10)`, status `scheduled`. -/
def c5Busy : Schedule := ⟨100, 2, some 1, 0, 10, "scheduled", none, "medium", none, some 1⟩

/-- Store for the conflict-iff witness. -/
def c5Store : Store :=
  ⟨[c5Busy], [⟨1, 3, "medium", "assigned", some 2, []⟩],
    [⟨1, "admin"⟩, ⟨2, "technician"⟩], 101⟩

/-- A create request overlapping the busy window. -/
def c5CreateIn : CreateInput := ⟨2, some 1, 5, 15, none, none, none⟩

/-- An admin patch moving the busy schedule to a free window. -/
def c5Patch : UpdatePatch := ⟨some 20, some 30, none, none⟩

/-- Witness for the C5 theorem: the overlapping create is rejected with
the conflict payload and status 400, and the window-moving admin update
succeeds because its own-id-excluding query is empty. -/
theorem create_update_succeed_iff_no_conflicts_witness :
    ((createSchedule c5Store ⟨1, "admin"⟩ c5CreateIn).1 =
        .conflict (scheduleConflicts c5Store.schedules c5CreateIn.technicianId
          c5CreateIn.scheduledStart c5CreateIn.scheduledEnd) ∧
      (createSchedule c5Store ⟨1, "admin"⟩ c5CreateIn).1.httpStatus = 400) ∧
    (updateSchedule c5Store ⟨1, "admin"⟩ 100 c5Patch).1 =
      .ok (appliedSchedule ⟨1, "admin"⟩ c5Busy c5Patch) :=
  ⟨((create_update_succeed_iff_no_conflicts c5Store ⟨1, "admin"⟩ c5CreateIn 100 c5Patch).1
      rfl ⟨⟨2, "technician"⟩, by decide, rfl⟩
      ⟨⟨1, 3, "medium", "assigned", some 2, []⟩, by decide⟩).2 (by decide),
   ((create_update_succeed_iff_no_conflicts c5Store ⟨1, "admin"⟩ c5CreateIn 100 c5Patch).2
      c5Busy rfl (by decide) (Or.inl (by decide))).1.mpr (by decide)⟩

lemma overlaps_symm {a b : Schedule} (h : overlaps a b) : overlaps b a :=
  ⟨h.2, h.1⟩

lemma conflictFree_append (l : List Schedule) (n : Schedule)
    (hcf : conflictFree l)
    (hn : ∀ b ∈ l, b.technician = n.technician → isTerminal b.status = false →
      isTerminal n.status = false → ¬ overlaps n b) :
    conflictFree (l ++ [n]) := by
  intro a ha b hb hab htech hta htb
  rcases List.mem_append.mp ha with ha' | ha' <;>
    rcases List.mem_append.mp hb with hb' | hb'
  · exact hcf a ha' b hb' hab htech hta htb
  · have hbn : b = n := List.mem_singleton.mp hb'
    subst hbn
    intro hov
    exact hn a ha' htech hta htb (overlaps_symm hov)
  · have han : a = n := List.mem_singleton.mp ha'
    subst han
    intro hov
    exact hn b hb' htech.symm htb hta hov
  · have han : a = n := List.mem_singleton.mp ha'
    have hbn : b = n := List.mem_singleton.mp hb'
    subst han
    subst hbn
    exact absurd rfl hab

lemma conflictFree_replace (l : List Schedule) (s' : Schedule)
    (hcf : conflictFree l)
    (hsafe : isTerminal s'.status = false →
      ∀ b ∈ l, b.id ≠ s'.id → b.technician = s'.technician →
        isTerminal b.status = false → ¬ overlaps s' b) :
    conflictFree (l.map (fun q => if q.id == s'.id then s' else q)) := by
  intro a ha b hb hab htech hta htb
  obtain ⟨a0, ha0, hfa⟩ := List.mem_map.mp ha
  obtain ⟨b0, hb0, hfb⟩ := List.mem_map.mp hb
  by_cases haid : a0.id = s'.id
  · have ha' : a = s' := by rw [← hfa, if_pos (by simpa using haid)]
    by_cases hbid : b0.id = s'.id
    · have hb' : b = s' := by rw [← hfb, if_pos (by simpa using hbid)]
      rw [ha', hb'] at hab
      exact absurd rfl hab
    · have hb' : b = b0 := by rw [← hfb, if_neg (by simpa using hbid)]
      rw [ha', hb']
      rw [ha'] at hta htech
      rw [hb'] at htb htech
      exact hsafe hta b0 hb0 hbid htech.symm htb
  · have ha' : a = a0 := by rw [← hfa, if_neg (by simpa using haid)]
    by_cases hbid : b0.id = s'.id
    · have hb' : b = s' := by rw [← hfb, if_pos (by simpa using hbid)]
      rw [ha', hb']
      rw [ha'] at hta htech
      rw [hb'] at htb htech
      intro hov
      exact hsafe htb a0 ha0 haid htech hta (overlaps_symm hov)
    · have hb' : b = b0 := by rw [← hfb, if_neg (by simpa using hbid)]
      rw [ha', hb']
      rw [ha'] at hta htech hab
      rw [hb'] at htb htech hab
      exact hcf a0 ha0 b0 hb0 hab htech hta htb

lemma appliedSchedule_start_tech (actor : User) (schedule : Schedule)
    (patch : UpdatePatch) (h : actor.userType = "technician") :
    (appliedSchedule actor schedule patch).scheduledStart = schedule.scheduledStart := by
  unfold appliedSchedule
  rw [if_pos (by simp [h])]

lemma appliedSchedule_end_tech (actor : User) (schedule : Schedule)
    (patch : UpdatePatch) (h : actor.userType = "technician") :
    (appliedSchedule actor schedule patch).scheduledEnd = schedule.scheduledEnd := by
  unfold appliedSchedule
  rw [if_pos (by simp [h])]

lemma appliedSchedule_start_none (actor : User) (schedule : Schedule)
    (patch : UpdatePatch) (h : patch.scheduledStart = none) :
    (appliedSchedule actor schedule patch).scheduledStart = schedule.scheduledStart := by
  unfold appliedSchedule
  split
  · rfl
  · simp [h]

lemma appliedSchedule_end_none (actor : User) (schedule : Schedule)
    (patch : UpdatePatch) (h : patch.scheduledEnd = none) :
    (appliedSchedule actor schedule patch).scheduledEnd = schedule.scheduledEnd := by
  unfold appliedSchedule
  split
  · rfl
  · simp [h]

lemma conflictFree_create (st : Store) (actor : User) (input : CreateInput)
    (hcf : conflictFree st.schedules) :
    conflictFree (createSchedule st actor input).2.schedules := by
  rw [createSchedule]
  split
  · exact hcf
  · split
    · exact hcf
    · split
      · exact hcf
      · split
        · exact hcf
        · next supportRequest heq =>
          dsimp only
          split
          · next hempty =>
            have hnil : scheduleConflicts st.schedules input.technicianId
                input.scheduledStart input.scheduledEnd = [] :=
              List.isEmpty_iff.mp hempty
            have hmain : conflictFree (st.schedules ++
                [{ id := st.nextScheduleId, technician := input.technicianId,
                   supportRequest := some supportRequest.id,
                   scheduledStart := input.scheduledStart,
                   scheduledEnd := input.scheduledEnd, status := "scheduled",
                   notes := input.notes,
                   priority := input.priority.getD supportRequest.priority,
                   location := input.location, createdBy := some actor.id }]) := by
              apply conflictFree_append _ _ hcf
              intro b hb htechb hbstat _ hov
              have hmem : b ∈ scheduleConflicts st.schedules input.technicianId
                  input.scheduledStart input.scheduledEnd := by
                apply List.mem_filter.mpr
                refine ⟨hb, ?_⟩
                simp only [overlapB, Bool.and_eq_true, beq_iff_eq, decide_eq_true_eq,
                  Bool.not_eq_true']
                exact ⟨⟨htechb, hov.2, hov.1⟩, hbstat⟩
              rw [hnil] at hmem
              cases hmem
            split
            · exact hmain
            · exact hmain
          · exact hcf

lemma conflictFree_update (st : Store) (actor : User) (id : Nat)
    (patch : UpdatePatch)
    (hcf : conflictFree st.schedules)
    (hok : opAllowedB st (.update actor id patch) = true) :
    conflictFree (updateSchedule st actor id patch).2.schedules := by
  rw [updateSchedule]
  split
  · exact hcf
  · split
    · exact hcf
    · next sched hfind =>
      split
      · exact hcf
      · dsimp only
        split
        · exact hcf
        · next hcond =>
          rw [cascade_noop]
          show conflictFree
            (st.schedules.map (fun q =>
              if q.id == (appliedSchedule actor sched patch).id then
                appliedSchedule actor sched patch else q))
          apply conflictFree_replace st.schedules (appliedSchedule actor sched patch) hcf
          intro hs' b hb hbid hbtech hbstat hov
          have hschedid : sched.id = id := by simpa using List.find?_some hfind
          have hsid : (appliedSchedule actor sched patch).id = sched.id :=
            appliedSchedule_id actor sched patch
          have hstech : (appliedSchedule actor sched patch).technician = sched.technician :=
            appliedSchedule_technician actor sched patch
          by_cases hneed : (actor.userType != "technician" &&
              (patch.scheduledStart.isSome || patch.scheduledEnd.isSome)) = true
          · have hCe : (scheduleConflictsExcl st.schedules id sched.technician
                (appliedSchedule actor sched patch).scheduledStart
                (appliedSchedule actor sched patch).scheduledEnd).isEmpty = true := by
              cases hy : (scheduleConflictsExcl st.schedules id sched.technician
                  (appliedSchedule actor sched patch).scheduledStart
                  (appliedSchedule actor sched patch).scheduledEnd).isEmpty
              · exfalso
                apply hcond
                rw [hneed, hy]
                rfl
              · rfl
            have hC : scheduleConflictsExcl st.schedules id sched.technician
                (appliedSchedule actor sched patch).scheduledStart
                (appliedSchedule actor sched patch).scheduledEnd = [] :=
              List.isEmpty_iff.mp hCe
            have hmem : b ∈ scheduleConflictsExcl st.schedules id sched.technician
                (appliedSchedule actor sched patch).scheduledStart
                (appliedSchedule actor sched patch).scheduledEnd := by
              apply List.mem_filter.mpr
              refine ⟨hb, ?_⟩
              simp only [overlapB, Bool.and_eq_true, bne_iff_ne, beq_iff_eq,
                decide_eq_true_eq, Bool.not_eq_true']
              refine ⟨⟨⟨?_, ?_⟩, hov.2, hov.1⟩, hbstat⟩
              · rw [← hschedid, ← hsid]
                exact hbid
              · rw [← hstech]
                exact hbtech
            rw [hC] at hmem
            cases hmem
          · have hwin : (appliedSchedule actor sched patch).scheduledStart =
                sched.scheduledStart ∧
                (appliedSchedule actor sched patch).scheduledEnd = sched.scheduledEnd := by
              have hab : (actor.userType != "technician") = false ∨
                  (patch.scheduledStart.isSome || patch.scheduledEnd.isSome) = false := by
                cases ha : (actor.userType != "technician") <;>
                  cases hbb : (patch.scheduledStart.isSome || patch.scheduledEnd.isSome) <;>
                    simp_all
              rcases hab with ha | hbb
              · have ht : actor.userType = "technician" := by simpa using ha
                exact ⟨appliedSchedule_start_tech _ _ _ ht, appliedSchedule_end_tech _ _ _ ht⟩
              · have h1 : patch.scheduledStart = none := by
                  cases hx : patch.scheduledStart with
                  | none => rfl
                  | some v => rw [hx] at hbb; simp at hbb
                have h2 : patch.scheduledEnd = none := by
                  cases hx : patch.scheduledEnd with
                  | none => rfl
                  | some v => rw [hx] at hbb; simp at hbb
                exact ⟨appliedSchedule_start_none _ _ _ h1, appliedSchedule_end_none _ _ _ h2⟩
            have hov' : overlaps sched b := by
              refine ⟨?_, ?_⟩
              · rw [← hwin.1]
                exact hov.1
              · rw [← hwin.2]
                exact hov.2
            by_cases hterm : isTerminal sched.status = false
            · have hschedmem : sched ∈ st.schedules := List.mem_of_find?_eq_some hfind
              have hidne : sched.id ≠ b.id := by
                intro h
                exact hbid (by rw [hsid, ← h])
              have htech' : sched.technician = b.technician := by
                rw [← hstech]
                exact hbtech.symm
              exact hcf sched hschedmem b hb hidne htech' hterm hbstat hov'
            · have hterm' : isTerminal sched.status = true := by
                cases h : isTerminal sched.status
                · exact absurd h hterm
                · rfl
              unfold opAllowedB at hok
              dsimp only at hok
              rw [hfind] at hok
              cases hps : patch.status with
              | none =>
                have hsst : (appliedSchedule actor sched patch).status = sched.status := by
                  rw [appliedSchedule_status, hps]
                  rfl
                rw [hsst] at hs'
                rw [hs'] at hterm'
                exact Bool.false_ne_true hterm'
              | some ns =>
                rw [hps] at hok
                dsimp only at hok
                rw [hterm'] at hok
                have hns : isTerminal ns = false := by
                  have hsst : (appliedSchedule actor sched patch).status = ns := by
                    rw [appliedSchedule_status, hps]
                    rfl
                  rw [← hsst]
                  exact hs'
                rw [hns] at hok
                simp at hok
                apply hneed
                rcases hok with ⟨hadmin, hdates⟩
                rcases hdates with hd | hd <;> simp [hadmin, hd]

lemma conflictFree_applyOp (st : Store) (op : Op)
    (hcf : conflictFree st.schedules)
    (hok : opAllowedB st op = true) :
    conflictFree (applyOp st op).schedules := by
  cases op with
  | create actor input => exact conflictFree_create st actor input hcf
  | update actor id patch => exact conflictFree_update st actor id patch hcf hok

/-- Claim C1 (amended): starting from a conflict-free store, any
sequence of `createSchedule` and `updateSchedule` calls — successful or
not — preserves the no-double-booking invariant, provided no update
reverts a terminal-status schedule to a non-terminal status without
being an admin update that also supplies a new `scheduledStart` or
`scheduledEnd` (only such updates re-run the conflict query).  A
status-only terminal-to-non-terminal revert can break the invariant. -/
theorem createUpdate_no_double_booking (st : Store) (ops : List Op)
    (hcf : conflictFree st.schedules)
    (hallow : opsAllowedB st ops = true) :
    conflictFree (runOps st ops).schedules := by
  induction ops generalizing st with
  | nil => exact hcf
  | cons op rest ih =>
    rw [opsAllowedB, Bool.and_eq_true] at hallow
    exact ih (applyOp st op) (conflictFree_applyOp st op hcf hallow.1) hallow.2

/-- The admin user of the double-booking counterexample. -/
def c1Admin : User := ⟨1, "admin"⟩

/-- Initial store of the double-booking counterexample: no schedules,
one support request, one admin, one technician. -/
def c1Store0 : Store :=
  ⟨[], [⟨1, 3, "medium", "new", none, []⟩], [⟨1, "admin"⟩, ⟨2, "technician"⟩], 100⟩

/-- The four successful calls of the counterexample: create `[0, 10)`
for technician 2, mark it completed, create a second `[0, 10)` for the
same technician (the completed one no longer blocks), then flip the
first schedule's status back to `scheduled` with a status-only update
that runs no conflict query. -/
def c1Ops : List Op :=
  [.create c1Admin ⟨2, some 1, 0, 10, none, none, none⟩,
   .update c1Admin 100 ⟨none, none, some "completed", none⟩,
   .create c1Admin ⟨2, some 1, 0, 10, none, none, none⟩,
   .update c1Admin 100 ⟨none, none, some "scheduled", none⟩]

/-- Claim C1 counterexample: every one of the four calls succeeds, the
initial store is conflict-free, and the final store holds two
non-terminal schedules of technician 2 over the same window `[0, 10)` —
a silent double-booking reachable through successful calls alone. -/
theorem terminal_revert_double_booking_cex :
    conflictFree c1Store0.schedules ∧
      opsSucceed c1Store0 c1Ops = true ∧
      ¬ conflictFree (runOps c1Store0 c1Ops).schedules := by
  decide

/-- The first three counterexample calls obey the amended guard. -/
def c1OkOps : List Op :=
  [.create c1Admin ⟨2, some 1, 0, 10, none, none, none⟩,
   .update c1Admin 100 ⟨none, none, some "completed", none⟩,
   .create c1Admin ⟨2, some 1, 0, 10, none, none, none⟩]

/-- Witness for the amended C1 theorem on a concrete guarded run. -/
theorem createUpdate_no_double_booking_witness :
    conflictFree c1Store0.schedules ∧
      opsAllowedB c1Store0 c1OkOps = true ∧
      conflictFree (runOps c1Store0 c1OkOps).schedules :=
  ⟨by decide, by decide,
   createUpdate_no_double_booking c1Store0 c1OkOps (by decide) (by decide)⟩

end Dern
